import Mathlib

/-!
Verification of the statistical core of `dku_data_drift/model_tools.py`
(model-drift plugin): the multi-class discrimination scorer
`mroc_auc_score`, the density estimator `format_proba_density`, and the
`SurrogateModel` feature-importance wrapper.

Modelling conventions:
* class labels are natural numbers (the code indexes prediction columns
  with the label value, so labels are integer-valued there);
* probabilities and sample weights are rationals, so every scorer
  computation is exact and executable;
* the binary discrimination primitive `roc_auc_score` from sklearn is an
  external collaborator; it is modelled by its defining mathematical
  formula (the weighted Mann-Whitney statistic with ties counted 1/2);
* Python exceptions are modelled with `Except String`;
* the kernel-density collaborator works on machine floats, which we model
  as `PyFloat` (a real number, a NaN, or a signed infinity); the
  estimator itself is an abstract parameter, per the spec it is out of
  scope and only its call interface matters here.
-/

/-- The weighted binary AUC (Mann-Whitney) statistic: probability that a
positive sample is scored above a negative one, ties counting one half,
samples weighted by `w` (uniform weights when `w` is `none`).  This models
the external collaborator `sklearn.metrics.roc_auc_score`. -/
def binAUC (y : List Bool) (s : List ℚ) (w : Option (List ℚ)) : ℚ :=
  let ws := w.getD (List.replicate y.length 1)
  let pts := y.zip (s.zip ws)
  let pos := pts.filter (fun p => p.1)
  let neg := pts.filter (fun p => !p.1)
  let num := (pos.map (fun p =>
    (neg.map (fun q =>
      p.2.2 * q.2.2 *
        (if q.2.1 < p.2.1 then 1 else if p.2.1 = q.2.1 then (1 : ℚ) / 2 else 0))).sum)).sum
  num / ((pos.map (fun p => p.2.2)).sum * (neg.map (fun q => q.2.2)).sum)

/-- Model of `np.unique(y_true)`: the distinct observed labels in sorted
ascending order. -/
def npUnique (y : List ℕ) : List ℕ :=
  List.insertionSort (· ≤ ·) y.dedup

/-- Number of distinct observed class labels (`nb_classes` in the code). -/
def nbClasses (y : List ℕ) : ℕ :=
  (npUnique y).length

/-- Model of `y_predictions.shape[1]` (`max_nb_classes` in the code): the
number of probability columns of the prediction matrix. -/
def maxNbClasses (P : List (List ℚ)) : ℕ :=
  (P.headD []).length

/-- Model of boolean-mask indexing `xs[np.in1d(y_true, [i, j])]`: keep the
entries of `xs` whose aligned true label is `i` or `j`. -/
def maskFilter {α : Type} (y : List ℕ) (xs : List α) (i j : ℕ) : List α :=
  ((y.zip xs).filter (fun p => p.1 == i || p.1 == j)).map Prod.snd

/-- The inner function `A(i, j)` of `mroc_auc_score`: the binary
discrimination score restricted to the rows labelled `i` or `j`, with
label `i` as the positive condition and column `i` of the prediction
matrix as the score (the code indexes the matrix with the label value
itself: `y_predictions[mask][:, i]`). -/
def A (y_true : List ℕ) (y_predictions : List (List ℚ))
    (sample_weight : Option (List ℚ)) (i j : ℕ) : ℚ :=
  binAUC ((maskFilter y_true y_true i j).map (fun c => c == i))
    ((maskFilter y_true y_predictions i j).map (fun r => r.getD i 0))
    (sample_weight.map (fun ws => maskFilter y_true ws i j))

/-- Model of `mroc_auc_score(y_true, y_predictions, sample_weight)`.
Mirrors the source: validate the class count against the column count,
reject degenerate single-class inputs, use the plain binary score with
labels remapped through `classes.index` in the two-class case, and the
Hand-Till pairwise aggregate otherwise. -/
def mroc_auc_score (y_true : List ℕ) (y_predictions : List (List ℚ))
    (sample_weight : Option (List ℚ)) : Except String ℚ :=
  let max_nb_classes := maxNbClasses y_predictions
  let classes := npUnique y_true
  let nb_classes := classes.length
  if nb_classes > max_nb_classes then
    .error ("Your test set contained more classes than the test set. Check your dataset or try a different split.")
  else if nb_classes < 2 then
    .error ("Ended up with less than two-classes in the validation set.")
  else if nb_classes = 2 then
    let y01 := y_true.map (fun c => classes.indexOf c)
    .ok (binAUC (y01.map (fun v => v == 1))
      (y_predictions.map (fun r => r.getD 1 0)) sample_weight)
  else
    let c := (1 : ℚ) / ((nb_classes : ℚ) * ((nb_classes : ℚ) - 1))
    .ok (c * (classes.map (fun i =>
      ((classes.filter (fun j => i != j)).map (fun j =>
        A y_true y_predictions sample_weight i j)).sum)).sum)

/-! Specification-side definitions for the scorer, written from the
wording of the specification (to be compared with the code above). -/

/-- The set of distinct observed classes, as the spec describes it. -/
def observedClasses (y : List ℕ) : Finset ℕ :=
  y.toFinset

/-- Spec wording: the subset of rows whose true label is `i` or `j`
(rows are identified by their position). -/
def specSubset (y : List ℕ) (i j : ℕ) : List ℕ :=
  (List.range y.length).filter (fun t => y.getD t 0 == i || y.getD t 0 == j)

/-- Spec wording for `A(i|j)`: on the subset of rows labelled `i` or `j`,
membership in class `i` is the positive condition, the predicted
probability for class `i` is the score, and the sample weights are
restricted to the subset when provided. -/
def specA (y : List ℕ) (P : List (List ℚ)) (w : Option (List ℚ)) (i j : ℕ) : ℚ :=
  binAUC ((specSubset y i j).map (fun t => y.getD t 0 == i))
    ((specSubset y i j).map (fun t => (P.getD t []).getD i 0))
    (w.map (fun ws => (specSubset y i j).map (fun t => ws.getD t 0)))

/-- Spec wording for the aggregate: `M = (1 / (k (k - 1))) * sum of
A(i|j)` over all ordered pairs of distinct observed classes, with
`k` the number of observed classes. -/
def handTillM (y : List ℕ) (P : List (List ℚ)) (w : Option (List ℚ)) : ℚ :=
  (1 / (((observedClasses y).card : ℚ) * (((observedClasses y).card : ℚ) - 1))) *
    ∑ i ∈ observedClasses y, ∑ j ∈ (observedClasses y).erase i, specA y P w i j

/-- Spec wording for the binary case: the larger of the two observed
classes is the one remapped to position 1 in sorted ascending order. -/
def specPositiveClass (y : List ℕ) : ℕ :=
  (observedClasses y).sup id

/-- Spec wording for the binary branch: the binary discrimination score of
the column of index 1 against the labels remapped to 0 and 1 in sorted
ascending order, weights passed through unchanged. -/
def specBinaryScore (y : List ℕ) (P : List (List ℚ)) (w : Option (List ℚ)) : ℚ :=
  binAUC (y.map (fun c => c == specPositiveClass y))
    (P.map (fun r => r.getD 1 0)) w

/-! The density estimator `format_proba_density`. -/

/-- A machine float as the density code observes it: a real value, NaN, or
a signed infinity. -/
inductive PyFloat : Type where
  | nan : PyFloat
  | inf : PyFloat
  | ninf : PyFloat
  | fin : ℝ → PyFloat

/-- Model of `np.isnan`. -/
def PyFloat.isNan : PyFloat → Bool
  | .nan => true
  | _ => false

/-- Model of `np.exp` on one value (elementwise in the code); overflow of
the exponential is not modelled, but the abstract estimator below may
still hand back non-finite values directly. -/
noncomputable def pyExp : PyFloat → PyFloat
  | .nan => .nan
  | .inf => .inf
  | .ninf => .fin 0
  | .fin x => .fin (Real.exp x)

/-- Model of `np.mean`. -/
noncomputable def npMean (data : List ℝ) : ℝ :=
  data.sum / data.length

/-- Model of `np.std` (population standard deviation). -/
noncomputable def npStd (data : List ℝ) : ℝ :=
  Real.sqrt ((data.map (fun x => (x - npMean data) ^ 2)).sum / data.length)

open Classical in
/-- Model of `np.unique` on the float data array: the distinct values (the
code only ever asks for their number). -/
noncomputable def npUniqueR (data : List ℝ) : List ℝ :=
  data.dedup

/-- Model of `np.linspace(a, b, n)`: `n` evenly spaced points from `a` to
`b` inclusive. -/
noncomputable def linspace (a b : ℝ) (n : ℕ) : List ℝ :=
  (List.range n).map (fun (i : ℕ) => a + (i : ℝ) * ((b - a) / ((n : ℝ) - 1)))

/-- The interface of the external Gaussian kernel-density collaborator:
given the bandwidth, the fitted data, the (possibly absent) sample
weights and one grid point, return the log-density there as a machine
float.  The code exponentiates the result. -/
def KDECollaborator : Type :=
  ℝ → List ℝ → Option (List ℝ) → ℝ → PyFloat

/-- Model of `format_proba_density(data, sample_weight, min_support,
max_support)`, parameterised by the kernel-density collaborator.  Mirrors
the source line by line: early return on empty data, the bandwidth
heuristic with its `0.06` floor, the weight discard for constant data,
the 500-point support grid, and the NaN-to-zero patch of the evaluated
densities. -/
noncomputable def format_proba_density (kde : KDECollaborator) (data : List ℝ)
    (sample_weight : Option (List ℝ)) (min_support max_support : ℝ) :
    List (ℝ × PyFloat) :=
  if data.length = 0 then []
  else
    let h0 := 1.06 * npStd data * (data.length : ℝ) ^ (-0.2 : ℝ)
    let h := if h0 ≤ 0 then 0.06 else h0
    let sw := if (npUniqueR data).length = 1 then none else sample_weight
    let X_plot := linspace min_support max_support 500
    X_plot.map (fun x =>
      let v := pyExp (kde h data sw x)
      (x, if v.isNan then PyFloat.fin 0 else v))

/-! Specification-side definitions for the density estimator. -/

/-- Spec wording: the rule-of-thumb bandwidth
`h = 1.06 * stddev(data) * n ^ (-0.2)`. -/
noncomputable def silvermanBandwidth (data : List ℝ) : ℝ :=
  1.06 * npStd data * (data.length : ℝ) ^ (-0.2 : ℝ)

/-- Spec wording: the selected bandwidth falls back to the fixed minimum
`0.06` whenever the rule-of-thumb value is not positive. -/
noncomputable def specBandwidth (data : List ℝ) : ℝ :=
  if silvermanBandwidth data ≤ 0 then 0.06 else silvermanBandwidth data

open Classical in
/-- Spec wording: sample weights are discarded for the fit exactly when
the data contains a single unique value, and passed through unchanged
otherwise. -/
noncomputable def specFitWeights (data : List ℝ) (w : Option (List ℝ)) :
    Option (List ℝ) :=
  if ∃ v, v ∈ data ∧ ∀ x ∈ data, x = v then none else w

/-- The NaN-to-zero patch applied to each evaluated density value. -/
def nanToZero (v : PyFloat) : PyFloat :=
  if v.isNan then PyFloat.fin 0 else v

/-- The density value the code evaluates at one grid point: the
exponentiated log-density returned by the collaborator called with the
selected bandwidth and fit weights, before any patching. -/
noncomputable def rawDensity (kde : KDECollaborator) (data : List ℝ)
    (w : Option (List ℝ)) (x : ℝ) : PyFloat :=
  pyExp (kde (specBandwidth data) data (specFitWeights data w) x)

/-! The `SurrogateModel` wrapper. -/

namespace ModelDriftConstants

/-- Modelled from the spec: the recognized CLASSIFICATION prediction-type
tag.  The constants module `model_drift_constants.py` is referenced by
the code but its source is not part of this excerpt. -/
def CLASSIFICATION_TYPE : String := "CLASSIFICATION"

/-- Modelled from the spec: the recognized REGRESSION prediction-type tag
(the constant keeps the misspelled name used by the code). -/
def REGRRSSION_TYPE : String := "REGRESSION"

end ModelDriftConstants

/-- A feature table: named columns and aligned data rows (the slice of the
pandas interface the code uses). -/
structure DF : Type where
  colNames : List String
  rows : List (List ℚ)
deriving DecidableEq

/-- Model of `df.drop(target, axis=1)`: remove the named column, raising a
KeyError when it is absent. -/
def DF.drop (df : DF) (c : String) : Except String DF :=
  if df.colNames.contains c then
    .ok ⟨df.colNames.filter (fun n => n ≠ c),
      df.rows.map (fun r =>
        ((df.colNames.zip r).filter (fun p => p.1 ≠ c)).map Prod.snd)⟩
  else
    .error ("KeyError: column not found")

/-- Model of `df[target]`: the values of the named column, raising a
KeyError when it is absent. -/
def DF.getCol (df : DF) (c : String) : Except String (List ℚ) :=
  if df.colNames.contains c then
    .ok (df.rows.map (fun r => r.getD (df.colNames.indexOf c) 0))
  else
    .error ("KeyError: column not found")

/-- The two tree-ensemble collaborator variants the constructor can
select. -/
inductive EstimatorKind : Type where
  | classifier : EstimatorKind
  | regressor : EstimatorKind
deriving DecidableEq

/-- The external tree-ensemble estimator: its kind, its fixed random
seed, and the data it was last fitted on (none before any fit). -/
structure SkEstimator : Type where
  kind : EstimatorKind
  seed : ℕ
  fittedOn : Option (DF × List ℚ)
deriving DecidableEq

/-- Model of `estimator.fit(X, y)`: sklearn rejects a feature matrix with
zero feature columns, otherwise the estimator is (re)fitted on the given
data. -/
def SkEstimator.fit (e : SkEstimator) (X : DF) (y : List ℚ) : Except String SkEstimator :=
  if X.colNames.isEmpty then
    .error ("ValueError: 0 feature(s) while a minimum of 1 is required")
  else
    .ok { kind := e.kind, seed := e.seed, fittedOn := some (X, y) }

/-- Model of `RandomForestClassifier(random_state=1407)`. -/
def RandomForestClassifier : SkEstimator :=
  ⟨EstimatorKind.classifier, 1407, none⟩

/-- Model of `RandomForestRegressor(random_state=1407)`. -/
def RandomForestRegressor : SkEstimator :=
  ⟨EstimatorKind.regressor, 1407, none⟩

/-- Modelled from the spec: the external `Preprocessor` collaborator
(`dku_data_drift/preprocessing.py` is referenced by the code but its
source is not part of this excerpt).  Per the spec it splits the labeled
table into train and test partitions with encoding applied consistently
to both; the claims observe only the column structure of the train
partition, so the encoding is modelled as the identity and the split as a
partition of the rows. -/
def Preprocessor.get_processed_train_test (df : DF) (_target : String) : DF × DF :=
  (⟨df.colNames, df.rows.take ((df.rows.length + 1) / 2)⟩,
   ⟨df.colNames, df.rows.drop ((df.rows.length + 1) / 2)⟩)

/-- The state of a `SurrogateModel` instance. -/
structure SurrogateModel : Type where
  prediction_type : String
  clf : SkEstimator
  feature_names : Option (List String)
  target : Option String
deriving DecidableEq

/-- Model of `SurrogateModel.check`. -/
def SurrogateModel.check (prediction_type : String) : Except String Unit :=
  if [ModelDriftConstants.CLASSIFICATION_TYPE,
      ModelDriftConstants.REGRRSSION_TYPE].contains prediction_type then
    .ok ()
  else
    .error ("Prediction type must either be CLASSIFICATION or REGRESSION.")

/-- Model of `SurrogateModel.__init__`: validate the prediction type
first, then select the classification or regression ensemble. -/
def SurrogateModel.init (prediction_type : String) : Except String SurrogateModel :=
  match SurrogateModel.check prediction_type with
  | .error e => .error e
  | .ok _ =>
    .ok { prediction_type := prediction_type
          clf := if prediction_type = ModelDriftConstants.CLASSIFICATION_TYPE then
              RandomForestClassifier
            else
              RandomForestRegressor
          feature_names := none
          target := none }

/-- Model of `SurrogateModel.get_features`. -/
def SurrogateModel.get_features (m : SurrogateModel) : Option (List String) :=
  m.feature_names

/-- Model of `SurrogateModel.fit(df, target)`: preprocess, keep the train
partition, split off the target column, fit the internal estimator, and
record the train feature column names.  No fitted-state check is
performed. -/
def SurrogateModel.fit (m : SurrogateModel) (df : DF) (target : String) :
    Except String SurrogateModel :=
  match ((Preprocessor.get_processed_train_test df target).1).drop target with
  | .error e => .error e
  | .ok train_X =>
    match ((Preprocessor.get_processed_train_test df target).1).getCol target with
    | .error e => .error e
    | .ok train_Y =>
      match m.clf.fit train_X train_Y with
      | .error e => .error e
      | .ok clf2 => .ok { m with clf := clf2, feature_names := some train_X.colNames }

/-! Concrete inputs used by witnesses and counterexamples. -/

/-- A concrete 3-by-3 prediction matrix (one row per class). -/
def PCex : List (List ℚ) :=
  [[1/2, 1/4, 1/4], [1/5, 3/5, 1/5], [1/10, 2/5, 1/2]]

/-- A concrete 4-by-2 prediction matrix for the binary case. -/
def PBex : List (List ℚ) :=
  [[9/10, 1/10], [3/5, 2/5], [1/5, 4/5], [3/10, 7/10]]

/-- The matrix PCex with its columns 1 and 2 swapped. -/
def PCswap : List (List ℚ) :=
  [[1/2, 1/4, 1/4], [1/5, 1/5, 3/5], [1/10, 1/2, 2/5]]

/-- The relabeling that swaps the class names 1 and 2. -/
def sigmaSwap12 : ℕ → ℕ :=
  fun n => if n = 1 then 2 else if n = 2 then 1 else n

/-- A trivial density collaborator returning the log-density 0
everywhere. -/
def kdeZero : KDECollaborator :=
  fun _ _ _ _ => PyFloat.fin 0

/-- A density collaborator returning NaN everywhere. -/
def kdeNaN : KDECollaborator :=
  fun _ _ _ _ => PyFloat.nan

/-- A density collaborator returning positive infinity everywhere (the
interface hands back arbitrary machine floats). -/
def kdeInf : KDECollaborator :=
  fun _ _ _ _ => PyFloat.inf

/-- A concrete two-column feature table with target column named y. -/
def dfW : DF :=
  ⟨["x", "y"], [[1, 2], [3, 4]]⟩

/-- A concrete second feature table used for the refit witness. -/
def dfW2 : DF :=
  ⟨["u", "v", "t"], [[1, 2, 0], [3, 4, 1]]⟩

/-- The surrogate instance produced by constructing with the
CLASSIFICATION tag. -/
def smW9 : SurrogateModel :=
  ⟨"CLASSIFICATION", RandomForestClassifier, none, none⟩

/-- The surrogate instance produced by fitting smW9 on dfW with target
column y. -/
def sm2W9 : SurrogateModel :=
  ⟨"CLASSIFICATION", ⟨EstimatorKind.classifier, 1407, some (⟨["x"], [[1]]⟩, [2])⟩,
    some ["x"], none⟩

/-- A concrete already-fitted surrogate instance. -/
def smFitted : SurrogateModel :=
  ⟨"CLASSIFICATION", ⟨EstimatorKind.classifier, 1407, some (⟨["x"], [[1]]⟩, [2])⟩,
    some ["x"], none⟩

/-! Properties of the sorted distinct class list. -/

theorem npUnique_perm_dedup (y : List ℕ) : List.Perm (npUnique y) y.dedup :=
  List.perm_insertionSort _ _

theorem npUnique_nodup (y : List ℕ) : (npUnique y).Nodup :=
  (List.Perm.nodup_iff (npUnique_perm_dedup y)).2 y.nodup_dedup

theorem npUnique_toFinset (y : List ℕ) : (npUnique y).toFinset = y.toFinset := by
  rw [List.toFinset_eq_of_perm _ _ (npUnique_perm_dedup y)]
  ext a
  simp

theorem npUnique_length (y : List ℕ) : (npUnique y).length = y.toFinset.card := by
  rw [List.card_toFinset, List.Perm.length_eq (npUnique_perm_dedup y)]

theorem npUnique_sorted (y : List ℕ) : List.Sorted (· ≤ ·) (npUnique y) :=
  List.sorted_insertionSort _ _

theorem mem_npUnique {y : List ℕ} {a : ℕ} : a ∈ npUnique y ↔ a ∈ y := by
  rw [List.Perm.mem_iff (npUnique_perm_dedup y), List.mem_dedup]

/-! The masked lists of the code coincide with the row-subset view of the
spec. -/

theorem maskFilter_eq_map_specSubset {α : Type} (d : α) :
    ∀ (y : List ℕ) (xs : List α), xs.length = y.length → ∀ i j,
      maskFilter y xs i j = (specSubset y i j).map (fun t => xs.getD t d)
  | [], xs, h, i, j => by
    simp [maskFilter, specSubset]
  | c :: y2, xs, h, i, j => by
    match xs, h with
    | x :: xs2, h =>
      have h2 : xs2.length = y2.length := by
        simp only [List.length_cons] at h
        omega
      have ih := maskFilter_eq_map_specSubset d y2 xs2 h2 i j
      simp only [maskFilter, specSubset] at ih ⊢
      simp only [List.zip_cons_cons, List.filter_cons, List.length_cons,
        List.range_succ_eq_map, List.filter_map, Function.comp_def,
        List.getD_cons_zero, List.getD_cons_succ]
      cases hc : (c == i || c == j)
      · rw [if_neg (by simp [hc]), if_neg (by simp [hc]), List.map_map]
        simpa [Function.comp_def] using ih
      · rw [if_pos rfl, if_pos rfl]
        simp only [List.map_cons, List.map_map, Function.comp_def,
          List.getD_cons_zero, List.getD_cons_succ]
        exact congrArg (x :: ·) ih

/-- The code inner score `A` coincides with the spec subset score, as soon
as predictions and weights are aligned with the labels. -/
theorem A_eq_specA {y : List ℕ} {P : List (List ℚ)} {w : Option (List ℚ)}
    (hP : P.length = y.length) (hw : ∀ ws ∈ w, ws.length = y.length) (i j : ℕ) :
    A y P w i j = specA y P w i j := by
  unfold A specA
  rw [maskFilter_eq_map_specSubset 0 y y rfl i j,
    maskFilter_eq_map_specSubset [] y P hP i j, List.map_map, List.map_map]
  cases w with
  | none =>
    rfl
  | some ws =>
    rw [Option.map_some', Option.map_some',
      maskFilter_eq_map_specSubset 0 y ws (hw ws rfl) i j]
    rfl

/-- Summing a function over the sorted distinct classes is summing it over
the finite set of observed classes. -/
theorem sum_npUnique (y : List ℕ) (f : ℕ → ℚ) :
    ((npUnique y).map f).sum = ∑ x ∈ y.toFinset, f x := by
  rw [← npUnique_toFinset y, List.sum_toFinset f (npUnique_nodup y)]

/-- The filtered inner iteration of the code is the sum over the erased
finite set. -/
theorem sum_npUnique_filter_ne (y : List ℕ) (i : ℕ) (f : ℕ → ℚ) :
    (((npUnique y).filter (fun j => i != j)).map f).sum = ∑ x ∈ y.toFinset.erase i, f x := by
  rw [← List.sum_toFinset f ((npUnique_nodup y).filter _), List.toFinset_filter,
    npUnique_toFinset]
  congr 1
  rw [Finset.filter_congr (fun x _ => by simp [bne_iff_ne] : ∀ x ∈ y.toFinset, ((i != x) = true) ↔ i ≠ x)]
  exact Finset.filter_ne y.toFinset i

/-- Core refinement: above two classes, the code returns exactly the
spec-side Hand-Till aggregate. -/
theorem mroc_multiclass_eq_handTillM {y : List ℕ} {P : List (List ℚ)} {w : Option (List ℚ)}
    (h3 : 2 < nbClasses y) (hmax : nbClasses y ≤ maxNbClasses P)
    (hP : P.length = y.length) (hw : ∀ ws ∈ w, ws.length = y.length) :
    mroc_auc_score y P w = Except.ok (handTillM y P w) := by
  have h3' : 2 < (npUnique y).length := h3
  have hmax' : (npUnique y).length ≤ maxNbClasses P := hmax
  simp only [mroc_auc_score]
  rw [if_neg (by omega), if_neg (by omega), if_neg (by omega)]
  refine congrArg Except.ok ?_
  unfold handTillM observedClasses
  rw [npUnique_length, sum_npUnique]
  refine congrArg (fun z => (1 / ((y.toFinset.card : ℚ) * ((y.toFinset.card : ℚ) - 1))) * z) ?_
  refine Finset.sum_congr rfl (fun i _ => ?_)
  have hA : (fun j => A y P w i j) = fun j => specA y P w i j :=
    funext (fun j => A_eq_specA hP hw i j)
  rw [hA, sum_npUnique_filter_ne]

/-- Core refinement for the binary branch. -/
theorem mroc_binary_eq_specBinaryScore {y : List ℕ} {P : List (List ℚ)} {w : Option (List ℚ)}
    (h2 : nbClasses y = 2) (hmax : nbClasses y ≤ maxNbClasses P) :
    mroc_auc_score y P w = Except.ok (specBinaryScore y P w) := by
  have h2' : (npUnique y).length = 2 := h2
  have hmax' : (npUnique y).length ≤ maxNbClasses P := hmax
  obtain ⟨a, b, hab⟩ := List.length_eq_two.1 h2'
  have hnd := npUnique_nodup y
  have hs := npUnique_sorted y
  rw [hab] at hnd hs
  have hne : a ≠ b := by
    simp [List.nodup_cons] at hnd
    exact hnd
  have hle : a ≤ b := by
    simp [List.sorted_cons] at hs
    exact hs
  have hpos : specPositiveClass y = b := by
    unfold specPositiveClass observedClasses
    rw [← npUnique_toFinset y, hab]
    simp [Finset.sup_insert, Finset.sup_singleton, sup_eq_right.2 hle]
  simp only [mroc_auc_score]
  rw [if_neg (by omega), if_neg (by omega), if_pos h2']
  refine congrArg Except.ok ?_
  unfold specBinaryScore
  rw [hpos, List.map_map]
  refine congrArg (fun l => binAUC l (P.map (fun r => r.getD 1 0)) w) ?_
  refine List.map_congr_left (fun c hc => ?_)
  have hcm : c ∈ npUnique y := mem_npUnique.2 hc
  rw [hab] at hcm
  simp only [List.mem_cons, List.not_mem_nil, or_false] at hcm
  rcases hcm with hc1 | hc2
  · subst hc1
    rw [hab]
    simp only [Function.comp_def, List.indexOf_cons_self]
    simp [hne]
  · subst hc2
    rw [hab]
    simp only [Function.comp_def]
    rw [List.indexOf_cons_ne _ hne, List.indexOf_cons_self]
    simp

/-- Validation characterisation: the scorer raises exactly on class-count
overflow and on degenerate single-class inputs. -/
theorem mroc_error_characterisation (y : List ℕ) (P : List (List ℚ)) (w : Option (List ℚ)) :
    (∃ e, mroc_auc_score y P w = Except.error e) ↔
      (maxNbClasses P < nbClasses y ∨ nbClasses y < 2) := by
  simp only [mroc_auc_score]
  split_ifs with h1 h2 h3 <;> simp_all [nbClasses]

/-! Relabeling the classes while permuting the prediction columns
consistently. -/

theorem specSubset_relabel {σ : ℕ → ℕ} (hinj : Function.Injective σ)
    (y : List ℕ) (i j : ℕ) :
    specSubset (y.map σ) (σ i) (σ j) = specSubset y i j := by
  unfold specSubset
  rw [List.length_map]
  refine List.filter_congr (fun t ht => ?_)
  have ht' : t < y.length := List.mem_range.1 ht
  rw [List.getD_eq_getElem _ _ (by simpa using ht'), List.getD_eq_getElem _ _ ht',
    List.getElem_map]
  have hbe : ∀ u v : ℕ, (σ u == σ v) = (u == v) := by
    intro u v
    by_cases huv : u = v
    · simp [huv]
    · simp [huv]
      exact fun h => huv (hinj h)
  rw [hbe, hbe]

theorem beq_map_inj {σ : ℕ → ℕ} (hinj : Function.Injective σ) (u v : ℕ) :
    (σ u == σ v) = (u == v) := by
  by_cases huv : u = v
  · simp [huv]
  · simp [huv]
    exact fun h => huv (hinj h)

theorem toFinset_map_eq_image (y : List ℕ) (σ : ℕ → ℕ) :
    (y.map σ).toFinset = y.toFinset.image σ := by
  ext a
  simp

theorem nbClasses_map_inj {σ : ℕ → ℕ} (hinj : Function.Injective σ) (y : List ℕ) :
    nbClasses (y.map σ) = nbClasses y := by
  unfold nbClasses
  rw [npUnique_length, npUnique_length, toFinset_map_eq_image,
    Finset.card_image_of_injective _ hinj]

theorem specA_relabel {σ : ℕ → ℕ} (hinj : Function.Injective σ)
    {y : List ℕ} {P P' : List (List ℚ)} {w : Option (List ℚ)} {i : ℕ} (j : ℕ)
    (hi : i ∈ y.toFinset)
    (hcol : ∀ t < y.length, ∀ c ∈ y.toFinset,
      (P'.getD t []).getD (σ c) 0 = (P.getD t []).getD c 0) :
    specA (y.map σ) P' w (σ i) (σ j) = specA y P w i j := by
  unfold specA
  rw [specSubset_relabel hinj]
  have hmem : ∀ t ∈ specSubset y i j, t < y.length := by
    intro t ht
    exact List.mem_range.1 (List.mem_filter.1 ht).1
  have h1 : (specSubset y i j).map (fun t => (y.map σ).getD t 0 == σ i) =
      (specSubset y i j).map (fun t => y.getD t 0 == i) := by
    refine List.map_congr_left (fun t ht => ?_)
    have ht' := hmem t ht
    rw [List.getD_eq_getElem _ _ (by simpa using ht'), List.getD_eq_getElem _ _ ht',
      List.getElem_map, beq_map_inj hinj]
  have h2 : (specSubset y i j).map (fun t => (P'.getD t []).getD (σ i) 0) =
      (specSubset y i j).map (fun t => (P.getD t []).getD i 0) := by
    refine List.map_congr_left (fun t ht => ?_)
    exact hcol t (hmem t ht) i hi
  rw [h1, h2]

theorem handTillM_relabel {σ : ℕ → ℕ} (hinj : Function.Injective σ)
    {y : List ℕ} {P P' : List (List ℚ)} {w : Option (List ℚ)}
    (hcol : ∀ t < y.length, ∀ c ∈ y.toFinset,
      (P'.getD t []).getD (σ c) 0 = (P.getD t []).getD c 0) :
    handTillM (y.map σ) P' w = handTillM y P w := by
  unfold handTillM observedClasses
  rw [toFinset_map_eq_image, Finset.card_image_of_injective _ hinj,
    Finset.sum_image (fun a _ b _ h => hinj h)]
  refine congrArg (fun z => (1 / ((y.toFinset.card : ℚ) * ((y.toFinset.card : ℚ) - 1))) * z) ?_
  refine Finset.sum_congr rfl (fun i hi => ?_)
  rw [← Finset.image_erase hinj, Finset.sum_image (fun a _ b _ h => hinj h)]
  exact Finset.sum_congr rfl (fun j hj => specA_relabel hinj j hi hcol)

theorem sigmaSwap12_involutive : Function.Involutive sigmaSwap12 := by
  intro n
  by_cases h1 : n = 1
  · simp [sigmaSwap12, h1]
  · by_cases h2 : n = 2
    · simp [sigmaSwap12, h2]
    · simp [sigmaSwap12, h1, h2]

theorem sigmaSwap12_injective : Function.Injective sigmaSwap12 :=
  sigmaSwap12_involutive.injective

theorem mroc_eval_012 : mroc_auc_score [0, 1, 2] PCex none = Except.ok 1 := by
  simp [mroc_auc_score, npUnique, List.dedup, List.pwFilter,
    List.insertionSort, List.orderedInsert, maxNbClasses, A, maskFilter, binAUC, PCex]
  norm_num

theorem mroc_eval_021 :
    mroc_auc_score ([0, 1, 2].map sigmaSwap12) PCex none = Except.ok (1 / 2) := by
  simp [mroc_auc_score, sigmaSwap12, npUnique, List.dedup, List.pwFilter,
    List.insertionSort, List.orderedInsert, maxNbClasses, A, maskFilter, binAUC, PCex]
  norm_num

/-- Claim C1: with more than two observed classes and validation passing
(the shape hypotheses say the predictions and weights are row-aligned with
the labels), the scorer returns the Hand-Till aggregate `M` exactly as the
spec formulates it. -/
theorem claim_C1_multiclass_hand_till (y : List ℕ) (P : List (List ℚ))
    (w : Option (List ℚ)) (h3 : 2 < nbClasses y) (hmax : nbClasses y ≤ maxNbClasses P)
    (hP : P.length = y.length) (hw : ∀ ws ∈ w, ws.length = y.length) :
    mroc_auc_score y P w = Except.ok (handTillM y P w) :=
  mroc_multiclass_eq_handTillM h3 hmax hP hw

/-- Witness for claim C1 at a concrete three-class input. -/
theorem claim_C1_witness :
    mroc_auc_score [0, 1, 2] PCex none = Except.ok (handTillM [0, 1, 2] PCex none) :=
  claim_C1_multiclass_hand_till [0, 1, 2] PCex none (by decide) (by decide)
    (by decide) (by simp)

/-- Claim C2: with exactly two observed classes (and enough prediction
columns for validation to pass), the scorer equals the binary
discrimination score of column 1 against the labels remapped to 0 and 1 in
sorted ascending order, weights passed through unchanged. -/
theorem claim_C2_binary_case (y : List ℕ) (P : List (List ℚ)) (w : Option (List ℚ))
    (h2 : nbClasses y = 2) (hmax : nbClasses y ≤ maxNbClasses P) :
    mroc_auc_score y P w = Except.ok (specBinaryScore y P w) :=
  mroc_binary_eq_specBinaryScore h2 hmax

/-- Witness for claim C2 at a concrete binary input with sample weights. -/
theorem claim_C2_witness :
    mroc_auc_score [0, 0, 1, 1] PBex (some [1, 2, 1, 1]) =
      Except.ok (specBinaryScore [0, 0, 1, 1] PBex (some [1, 2, 1, 1])) :=
  claim_C2_binary_case [0, 0, 1, 1] PBex (some [1, 2, 1, 1]) (by decide) (by decide)

/-- Claim C3 counterexample: relabeling the classes with the bijection
swapping 1 and 2, while leaving the prediction matrix unchanged, changes
the aggregate score (the code reads the prediction column indexed by the
label value itself). -/
theorem claim_C3_counterexample :
    Function.Bijective sigmaSwap12 ∧
      mroc_auc_score ([0, 1, 2].map sigmaSwap12) PCex none ≠
        mroc_auc_score [0, 1, 2] PCex none := by
  refine ⟨sigmaSwap12_involutive.bijective, ?_⟩
  rw [mroc_eval_021, mroc_eval_012]
  intro hcontra
  have : (1 : ℚ) / 2 = 1 := Except.ok.inj hcontra
  norm_num at this

/-- Claim C3 as amended: the multi-class score is invariant under an
injective relabeling of the class names provided the prediction matrix
columns are permuted consistently with the relabeling (column sigma(c) of
the new matrix holds column c of the old one for every observed class). -/
theorem claim_C3_amended (σ : ℕ → ℕ) (hinj : Function.Injective σ)
    (y : List ℕ) (P P' : List (List ℚ)) (w : Option (List ℚ))
    (h3 : 2 < nbClasses y)
    (hmaxP : nbClasses y ≤ maxNbClasses P) (hmaxP' : nbClasses y ≤ maxNbClasses P')
    (hP : P.length = y.length) (hP' : P'.length = y.length)
    (hw : ∀ ws ∈ w, ws.length = y.length)
    (hcol : ∀ t < y.length, ∀ c ∈ y.toFinset,
      (P'.getD t []).getD (σ c) 0 = (P.getD t []).getD c 0) :
    mroc_auc_score (y.map σ) P' w = mroc_auc_score y P w := by
  have h3'' : 2 < nbClasses (y.map σ) := by
    rw [nbClasses_map_inj hinj]
    exact h3
  have hmax'' : nbClasses (y.map σ) ≤ maxNbClasses P' := by
    rw [nbClasses_map_inj hinj]
    exact hmaxP'
  have hP'' : P'.length = (y.map σ).length := by
    rw [List.length_map]
    exact hP'
  have hw'' : ∀ ws ∈ w, ws.length = (y.map σ).length := by
    intro ws hws
    rw [List.length_map]
    exact hw ws hws
  rw [mroc_multiclass_eq_handTillM h3'' hmax'' hP'' hw'',
    mroc_multiclass_eq_handTillM h3 hmaxP hP hw, handTillM_relabel hinj hcol]

/-- Witness for the amended claim C3, with the 1-2 swap and the matrix
columns swapped consistently. -/
theorem claim_C3_amended_witness :
    mroc_auc_score ([0, 1, 2].map sigmaSwap12) PCswap none =
      mroc_auc_score [0, 1, 2] PCex none :=
  claim_C3_amended sigmaSwap12 sigmaSwap12_injective [0, 1, 2] PCex PCswap none
    (by decide) (by decide) (by decide) (by decide) (by decide) (by simp)
    (by
      intro t ht c hc
      have ht3 : t < 3 := by simpa using ht
      interval_cases t <;> fin_cases hc <;> rfl)

/-- Claim C4: the scorer fails with its validation errors exactly when the
observed classes outnumber the prediction columns or fewer than two
classes are observed. -/
theorem claim_C4_validation (y : List ℕ) (P : List (List ℚ)) (w : Option (List ℚ)) :
    (∃ e, mroc_auc_score y P w = Except.error e) ↔
      (maxNbClasses P < nbClasses y ∨ nbClasses y < 2) :=
  mroc_error_characterisation y P w

/-! The density estimator: characterisation and claims. -/

theorem npUniqueR_length_eq_one {data : List ℝ} :
    (npUniqueR data).length = 1 ↔ ∃ v, v ∈ data ∧ ∀ x ∈ data, x = v := by
  unfold npUniqueR
  rw [List.length_eq_one]
  constructor
  · rintro ⟨a, ha⟩
    refine ⟨a, ?_, ?_⟩
    · have h1 : a ∈ data.dedup := by
        rw [ha]
        exact List.mem_singleton_self a
      exact List.mem_dedup.1 h1
    · intro x hx
      have h2 : x ∈ data.dedup := List.mem_dedup.2 hx
      rw [ha] at h2
      simpa using h2
  · rintro ⟨v, hv, hall⟩
    have h1 : ∀ b ∈ data.dedup, b = v := fun b hb => hall b (List.mem_dedup.1 hb)
    have h2 : data.dedup = List.replicate data.dedup.length v :=
      List.eq_replicate_of_mem h1
    have h3 : data.dedup.Nodup := List.nodup_dedup data
    rw [h2] at h3
    have h4 : data.dedup.length ≤ 1 := List.nodup_replicate.1 h3
    have h5 : v ∈ data.dedup := List.mem_dedup.2 hv
    have h6 : 0 < data.dedup.length := List.length_pos.2 (List.ne_nil_of_mem h5)
    refine ⟨v, ?_⟩
    rw [h2]
    have h7 : data.dedup.length = 1 := by omega
    rw [h7]
    rfl

/-- Characterisation of the density routine on non-empty data: it maps
the 500-point grid through the collaborator called with the spec-side
bandwidth and fit weights, and patches NaN values to zero. -/
theorem format_proba_density_characterisation (kde : KDECollaborator) (data : List ℝ)
    (w : Option (List ℝ)) (a b : ℝ) (hdata : data ≠ []) :
    format_proba_density kde data w a b =
      (linspace a b 500).map (fun x =>
        (x, nanToZero (rawDensity kde data w x))) := by
  have hws : (if (npUniqueR data).length = 1 then none else w) = specFitWeights data w := by
    unfold specFitWeights
    by_cases hc : (npUniqueR data).length = 1
    · rw [if_pos hc, if_pos (npUniqueR_length_eq_one.1 hc)]
    · rw [if_neg hc, if_neg (fun he => hc (npUniqueR_length_eq_one.2 he))]
  simp only [format_proba_density]
  rw [if_neg (by simpa using hdata), hws]
  exact List.map_congr_left (fun x _ => rfl)

theorem linspace_length (a b : ℝ) (n : ℕ) : (linspace a b n).length = n := by
  rw [linspace, List.length_map, List.length_range]

theorem linspace_get (a b : ℝ) (n i : ℕ) (h : i < (linspace a b n).length) :
    (linspace a b n).get ⟨i, h⟩ = a + (i : ℝ) * ((b - a) / ((n : ℝ) - 1)) := by
  simp only [linspace, List.get_eq_getElem]
  rw [List.getElem_map, List.getElem_range]


/-- Claim C5: on non-empty data the estimator calls the kernel-density
collaborator with exactly the rule-of-thumb bandwidth (with its 0.06
floor) and with the weights discarded exactly when the data has a single
unique value; everything else it does is mapping the grid and patching
NaN. -/
theorem claim_C5_bandwidth_and_weights (kde : KDECollaborator) (data : List ℝ)
    (w : Option (List ℝ)) (a b : ℝ) (hdata : data ≠ []) :
    format_proba_density kde data w a b =
      (linspace a b 500).map (fun x =>
        (x, nanToZero (pyExp (kde (specBandwidth data) data (specFitWeights data w) x)))) :=
  format_proba_density_characterisation kde data w a b hdata

/-- Witness for claim C5 at a concrete input. -/
theorem claim_C5_witness :
    format_proba_density kdeZero [(0 : ℝ)] none 0 1 =
      (linspace 0 1 500).map (fun x =>
        (x, nanToZero (pyExp (kdeZero (specBandwidth [(0 : ℝ)]) [(0 : ℝ)]
          (specFitWeights [(0 : ℝ)] none) x)))) :=
  claim_C5_bandwidth_and_weights kdeZero [(0 : ℝ)] none 0 1 (by simp)


theorem fpd_get (kde : KDECollaborator) (data : List ℝ) (w : Option (List ℝ))
    (a b : ℝ) (hne : data ≠ []) (i : ℕ)
    (h : i < (format_proba_density kde data w a b).length) :
    ((format_proba_density kde data w a b).get ⟨i, h⟩).1 =
      a + (i : ℝ) * ((b - a) / 499) := by
  have hchar := format_proba_density_characterisation kde data w a b hne
  rw [List.get_of_eq hchar]
  rw [List.get_eq_getElem, List.getElem_map]
  have h2 : i < (linspace a b 500).length := by
    rw [linspace_length]
    rw [hchar, List.length_map, linspace_length] at h
    exact h
  have h3 := linspace_get a b 500 i h2
  rw [List.get_eq_getElem] at h3
  rw [h3]
  norm_num

theorem headD_eq_getD {γ : Type} (l : List γ) (d : γ) : l.headD d = l.getD 0 d := by
  cases l <;> rfl

theorem linspace_headD (a b : ℝ) : (linspace a b 500).headD 0 = a := by
  have h2 : (0 : ℕ) < (linspace a b 500).length := by
    rw [linspace_length]
    norm_num
  rw [headD_eq_getD, List.getD_eq_getElem _ _ h2]
  have h3 := linspace_get a b 500 0 h2
  rw [List.get_eq_getElem] at h3
  rw [h3]
  norm_num

theorem linspace_getLastD (a b : ℝ) : (linspace a b 500).getLastD 0 = b := by
  have hne : linspace a b 500 ≠ [] := by
    intro hcon
    have := linspace_length a b 500
    rw [hcon] at this
    simp at this
  have h2 : (499 : ℕ) < (linspace a b 500).length := by
    rw [linspace_length]
    norm_num
  rw [List.getLastD_eq_getLast?, List.getLast?_eq_getLast _ hne, Option.getD_some,
    List.getLast_eq_getElem]
  simp only [linspace_length]
  have h3 := linspace_get a b 500 499 h2
  rw [List.get_eq_getElem] at h3
  norm_num at h3 ⊢
  rw [h3]
  field_simp

theorem fpd_map_fst (kde : KDECollaborator) (data : List ℝ) (w : Option (List ℝ))
    (a b : ℝ) (hne : data ≠ []) :
    (format_proba_density kde data w a b).map Prod.fst = linspace a b 500 := by
  rw [format_proba_density_characterisation kde data w a b hne, List.map_map]
  have hcomp : (Prod.fst ∘ fun x =>
      ((x : ℝ), nanToZero (rawDensity kde data w x))) = fun x => x := rfl
  rw [hcomp, List.map_id']

/-- Claim C6: empty data yields an empty output whatever the support
bounds are; non-empty data yields exactly 500 pairs whose x coordinates
follow the even grid over the support interval, are monotonically
nondecreasing, and include both endpoints. -/
theorem claim_C6_output_shape (kde : KDECollaborator) (data : List ℝ)
    (w : Option (List ℝ)) (a b : ℝ) :
    (data = [] → format_proba_density kde data w a b = []) ∧
    (data ≠ [] → a ≤ b →
      (format_proba_density kde data w a b).length = 500 ∧
      (∀ i, ∀ h : i < (format_proba_density kde data w a b).length,
        ((format_proba_density kde data w a b).get ⟨i, h⟩).1 =
          a + (i : ℝ) * ((b - a) / 499)) ∧
      List.Chain' (· ≤ ·) ((format_proba_density kde data w a b).map Prod.fst) ∧
      ((format_proba_density kde data w a b).map Prod.fst).headD 0 = a ∧
      ((format_proba_density kde data w a b).map Prod.fst).getLastD 0 = b) := by
  constructor
  · intro h
    subst h
    simp [format_proba_density]
  · intro hne hab
    refine ⟨?_, fun i h => fpd_get kde data w a b hne i h, ?_, ?_, ?_⟩
    · rw [format_proba_density_characterisation kde data w a b hne,
        List.length_map, linspace_length]
    · rw [fpd_map_fst kde data w a b hne, List.chain'_iff_get]
      intro i h
      have h1 : i < (linspace a b 500).length := by
        rw [linspace_length] at h ⊢
        omega
      have h2 : i + 1 < (linspace a b 500).length := by
        rw [linspace_length] at h ⊢
        omega
      rw [linspace_get a b 500 i h1, linspace_get a b 500 (i + 1) h2]
      have hd : 0 ≤ (b - a) / ((500 : ℝ) - 1) := by
        apply div_nonneg (sub_nonneg.2 hab)
        norm_num
      have hc : (i : ℝ) ≤ ((i + 1 : ℕ) : ℝ) := by
        push_cast
        linarith
      have hm := mul_le_mul_of_nonneg_right hc hd
      linarith
    · rw [fpd_map_fst kde data w a b hne]
      exact linspace_headD a b
    · rw [fpd_map_fst kde data w a b hne]
      exact linspace_getLastD a b

/-- Witness for claim C6: the empty case and the 500-point case at a
concrete input. -/
theorem claim_C6_witness :
    format_proba_density kdeZero [] none 0 1 = [] ∧
      (format_proba_density kdeZero [(0 : ℝ)] none 0 1).length = 500 ∧
      (format_proba_density kdeZero [(0 : ℝ)] none 0 1).map Prod.fst ≠ [] := by
  refine ⟨(claim_C6_output_shape kdeZero [] none 0 1).1 rfl, ?_, ?_⟩
  · exact ((claim_C6_output_shape kdeZero [(0 : ℝ)] none 0 1).2 (by simp) (by norm_num)).1
  · have hlen := ((claim_C6_output_shape kdeZero [(0 : ℝ)] none 0 1).2
      (by simp) (by norm_num)).1
    intro hcon
    have := congrArg List.length hcon
    rw [List.length_map, hlen] at this
    simp at this

/-- Claim C7 counterexample: a positive-infinity density value is NOT
coerced to 0 in the returned sequence — the code only patches NaN — so a
non-finite value can be returned unchanged at every grid point. -/
theorem claim_C7_counterexample :
    ((format_proba_density kdeInf [(0 : ℝ)] none 0 1).map Prod.snd) =
      List.replicate 500 PyFloat.inf ∧ PyFloat.inf ≠ PyFloat.fin 0 := by
  constructor
  · rw [format_proba_density_characterisation kdeInf [(0 : ℝ)] none 0 1 (by simp),
      List.map_map]
    have hcomp : (Prod.snd ∘ fun x =>
        ((x : ℝ), nanToZero (rawDensity kdeInf [(0 : ℝ)] none x))) =
        fun _ => PyFloat.inf := by
      funext x
      simp [rawDensity, kdeInf, pyExp, nanToZero, PyFloat.isNan]
    rw [hcomp, List.map_const', linspace_length]
  · intro hcon
    cases hcon

/-- Claim C7 as amended: every returned density value is the NaN-to-zero
patch of the evaluated raw density at its grid point: a NaN becomes
exactly 0, and any other value — finite or infinite — is returned
unchanged. -/
theorem claim_C7_nan_patch (kde : KDECollaborator) (data : List ℝ)
    (w : Option (List ℝ)) (a b : ℝ) (p : ℝ × PyFloat)
    (hp : p ∈ format_proba_density kde data w a b) :
    p.2 = nanToZero (rawDensity kde data w p.1) ∧
    ((rawDensity kde data w p.1).isNan = true → p.2 = PyFloat.fin 0) ∧
    ((rawDensity kde data w p.1).isNan = false → p.2 = rawDensity kde data w p.1) := by
  by_cases hdata : data = []
  · subst hdata
    simp [format_proba_density] at hp
  · rw [format_proba_density_characterisation kde data w a b hdata] at hp
    obtain ⟨x, _, hfx⟩ := List.mem_map.1 hp
    cases hfx
    refine ⟨rfl, ?_, ?_⟩
    · intro hnan
      simp [nanToZero, hnan]
    · intro hnot
      simp [nanToZero, hnot]

/-- Witness for the amended claim C7: with a collaborator that always
returns NaN, the returned density at the left endpoint is exactly 0. -/
theorem claim_C7_witness :
    ((0 : ℝ), PyFloat.fin 0).2 = nanToZero (rawDensity kdeNaN [(0 : ℝ)] none ((0 : ℝ), PyFloat.fin 0).1) ∧
    ((rawDensity kdeNaN [(0 : ℝ)] none ((0 : ℝ), PyFloat.fin 0).1).isNan = true →
      ((0 : ℝ), PyFloat.fin 0).2 = PyFloat.fin 0) ∧
    ((rawDensity kdeNaN [(0 : ℝ)] none ((0 : ℝ), PyFloat.fin 0).1).isNan = false →
      ((0 : ℝ), PyFloat.fin 0).2 = rawDensity kdeNaN [(0 : ℝ)] none ((0 : ℝ), PyFloat.fin 0).1) :=
  claim_C7_nan_patch kdeNaN [(0 : ℝ)] none 0 1 ((0 : ℝ), PyFloat.fin 0)
    (by
      rw [format_proba_density_characterisation kdeNaN [(0 : ℝ)] none 0 1 (by simp)]
      refine List.mem_map.2 ⟨0, ?_, ?_⟩
      · have h2 : (0 : ℕ) < (linspace 0 1 500).length := by
          rw [linspace_length]
          norm_num
        have h3 := linspace_get 0 1 500 0 h2
        have hmem := List.get_mem (linspace 0 1 500) 0 h2
        rw [h3] at hmem
        simpa using hmem
      · simp [rawDensity, kdeNaN, pyExp, nanToZero, PyFloat.isNan])

/-- Claim C8: construction fails with the invalid-input error exactly for
unrecognized prediction-type tags (the error result carries no
estimator), and with a recognized tag it selects the classification or
regression ensemble accordingly. -/
theorem claim_C8_constructor_validation (p : String) :
    SurrogateModel.init p =
      (if p = ModelDriftConstants.CLASSIFICATION_TYPE then
        Except.ok ⟨p, RandomForestClassifier, none, none⟩
      else if p = ModelDriftConstants.REGRRSSION_TYPE then
        Except.ok ⟨p, RandomForestRegressor, none, none⟩
      else
        Except.error ("Prediction type must either be CLASSIFICATION or REGRESSION.")) := by
  unfold SurrogateModel.init SurrogateModel.check
  by_cases h1 : p = ModelDriftConstants.CLASSIFICATION_TYPE
  · subst h1
    simp
  · by_cases h2 : p = ModelDriftConstants.REGRRSSION_TYPE
    · subst h2
      have hne : ModelDriftConstants.REGRRSSION_TYPE ≠ ModelDriftConstants.CLASSIFICATION_TYPE := by
        decide
      simp [hne]
    · have hcont : ([ModelDriftConstants.CLASSIFICATION_TYPE,
          ModelDriftConstants.REGRRSSION_TYPE].contains p) = false := by
        simp [List.contains_cons, h1, h2]
      simp [hcont, h1, h2]

/-- Claim C9: before any fit the feature list is `none`; after a
successful fit on a table, `get_features` returns the non-empty ordered
list of the table column names with the target column removed. -/
theorem claim_C9_get_features (p : String) (m m2 : SurrogateModel) (df : DF)
    (target : String) (hinit : SurrogateModel.init p = Except.ok m)
    (hfit : m.fit df target = Except.ok m2) :
    m.get_features = none ∧
    m2.get_features = some (df.colNames.filter (fun c => c ≠ target)) ∧
    df.colNames.filter (fun c => c ≠ target) ≠ [] := by
  have hm : m.feature_names = none := by
    unfold SurrogateModel.init at hinit
    cases hcheck : SurrogateModel.check p with
    | error e =>
      rw [hcheck] at hinit
      cases hinit
    | ok u =>
      rw [hcheck] at hinit
      cases hinit
      rfl
  unfold SurrogateModel.fit at hfit
  by_cases hc : df.colNames.contains target = true
  · have hmem : target ∈ df.colNames := by simpa using hc
    have hdrop : ((Preprocessor.get_processed_train_test df target).1).drop target =
        Except.ok ⟨df.colNames.filter (fun n => n ≠ target),
          ((Preprocessor.get_processed_train_test df target).1).rows.map (fun r =>
            ((df.colNames.zip r).filter (fun q => q.1 ≠ target)).map Prod.snd)⟩ := by
      simp [DF.drop, Preprocessor.get_processed_train_test, hmem]
    have hget : ((Preprocessor.get_processed_train_test df target).1).getCol target =
        Except.ok (((Preprocessor.get_processed_train_test df target).1).rows.map
          (fun r => r.getD (df.colNames.indexOf target) 0)) := by
      simp [DF.getCol, Preprocessor.get_processed_train_test, hmem]
    by_cases hall : ∀ c ∈ df.colNames, c = target
    · simp only [hdrop, hget, SkEstimator.fit] at hfit
      have hempty : (df.colNames.filter (fun n => n ≠ target)) = [] :=
        List.filter_eq_nil_iff.2 (fun c hcmem => by simp [hall c hcmem])
      rw [hempty] at hfit
      simp at hfit
    · simp [hdrop, hget, SkEstimator.fit, hall] at hfit
      refine ⟨hm, ?_, ?_⟩
      · rw [← hfit]
        simp [SurrogateModel.get_features]
      · intro hcon
        apply hall
        intro c hcmem
        have hnc := List.filter_eq_nil_iff.1 hcon c hcmem
        simpa using hnc
  · have hnmem : target ∉ df.colNames := by simpa using hc
    have hdrop : ((Preprocessor.get_processed_train_test df target).1).drop target =
        Except.error ("KeyError: column not found") := by
      simp [DF.drop, Preprocessor.get_processed_train_test, hnmem]
    simp [hdrop] at hfit

/-- Witness for claim C9 on a concrete construction and fit. -/
theorem claim_C9_witness :
    smW9.get_features = none ∧
    sm2W9.get_features = some (dfW.colNames.filter (fun c => c ≠ "y")) ∧
    dfW.colNames.filter (fun c => c ≠ "y") ≠ [] :=
  claim_C9_get_features "CLASSIFICATION" smW9 sm2W9 dfW "y" (by rfl) (by rfl)

/-- Claim C10: fit performs no fitted-state check: any already-fitted
instance accepts a second fit on a valid table, the same internal
estimator (kind and seed) is refitted on the new train data, and the
feature list is replaced by the second train feature columns. -/
theorem claim_C10_no_refit_guard (m : SurrogateModel) (df2 : DF) (t2 : String)
    (_hfitted : m.feature_names.isSome = true)
    (ht : t2 ∈ df2.colNames)
    (hfeat : ∃ c ∈ df2.colNames, c ≠ t2) :
    ∃ m2 tX tY,
      m.fit df2 t2 = Except.ok m2 ∧
      ((Preprocessor.get_processed_train_test df2 t2).1).drop t2 = Except.ok tX ∧
      ((Preprocessor.get_processed_train_test df2 t2).1).getCol t2 = Except.ok tY ∧
      m2.clf = ⟨m.clf.kind, m.clf.seed, some (tX, tY)⟩ ∧
      m2.feature_names = some tX.colNames ∧
      tX.colNames = df2.colNames.filter (fun c => c ≠ t2) := by
  have hdrop : ((Preprocessor.get_processed_train_test df2 t2).1).drop t2 =
      Except.ok ⟨df2.colNames.filter (fun n => n ≠ t2),
        ((Preprocessor.get_processed_train_test df2 t2).1).rows.map (fun r =>
          ((df2.colNames.zip r).filter (fun q => q.1 ≠ t2)).map Prod.snd)⟩ := by
    simp [DF.drop, Preprocessor.get_processed_train_test, ht]
  have hget : ((Preprocessor.get_processed_train_test df2 t2).1).getCol t2 =
      Except.ok (((Preprocessor.get_processed_train_test df2 t2).1).rows.map
        (fun r => r.getD (df2.colNames.indexOf t2) 0)) := by
    simp [DF.getCol, Preprocessor.get_processed_train_test, ht]
  have hempcond : ¬((df2.colNames.filter (fun n => n ≠ t2)).isEmpty = true) := by
    rw [List.isEmpty_iff]
    intro hcon
    obtain ⟨c, hcmem, hcne⟩ := hfeat
    have hthis := List.filter_eq_nil_iff.1 hcon c hcmem
    simp at hthis
    exact hcne hthis
  have hfit : m.fit df2 t2 = Except.ok
      { prediction_type := m.prediction_type,
        clf := ⟨m.clf.kind, m.clf.seed, some
          (⟨df2.colNames.filter (fun n => n ≠ t2),
            ((Preprocessor.get_processed_train_test df2 t2).1).rows.map (fun r =>
              ((df2.colNames.zip r).filter (fun q => q.1 ≠ t2)).map Prod.snd)⟩,
           ((Preprocessor.get_processed_train_test df2 t2).1).rows.map
             (fun r => r.getD (df2.colNames.indexOf t2) 0))⟩,
        feature_names := some (df2.colNames.filter (fun n => n ≠ t2)),
        target := m.target } := by
    unfold SurrogateModel.fit
    rw [hdrop, hget]
    simp only [SkEstimator.fit]
    rw [if_neg hempcond]
  exact ⟨_, _, _, hfit, hdrop, hget, rfl, rfl, rfl⟩

/-- Witness for claim C10: the concrete already-fitted instance accepts a
second fit on a second table. -/
theorem claim_C10_witness :
    ∃ m2 tX tY,
      smFitted.fit dfW2 "t" = Except.ok m2 ∧
      ((Preprocessor.get_processed_train_test dfW2 "t").1).drop "t" = Except.ok tX ∧
      ((Preprocessor.get_processed_train_test dfW2 "t").1).getCol "t" = Except.ok tY ∧
      m2.clf = ⟨smFitted.clf.kind, smFitted.clf.seed, some (tX, tY)⟩ ∧
      m2.feature_names = some tX.colNames ∧
      tX.colNames = dfW2.colNames.filter (fun c => c ≠ "t") :=
  claim_C10_no_refit_guard smFitted dfW2 "t" (by rfl) (by decide)
    ⟨"u", by decide, by decide⟩
